import Mathlib

/-!
# Verification of the minidger accounting core

Shallow embedding of the Rust sources under `src/src/journal/`
(`accounting_tree.rs`, `ledger.rs`, `balance_sheet.rs`) and proofs of the
specification claims about them.

Modelling choices:
* `f64` amounts are modelled as `ℚ` (exact arithmetic; all claim instances
  use small integral values that are exact in `f64` as well).
* `DateTime<Utc>` is modelled as `Int` (only comparison is used).
* A Rust `panic!`/failed `assert!` is modelled as `Except.error`.
* The `Rc<RefCell<...>>` node graph is modelled as an inductive rose tree
  (`TreeNode`); trait dispatch over `RootNode`/`AccountTagNode`/`AccountNode`
  becomes a match over `NodeKind`, reproducing each impl's behaviour
  (`RootNode::amount` returns `0`, `RootNode::set_amount` and
  `AccountNode::add_child` are no-ops, and so on).
* Node constructors only read the parent chain upward (level, account type,
  parent); that chain is modelled by `AncChain`.
-/

namespace Minidger

/-- `ActionType` from accounting_tree.rs. -/
inductive ActionType where
  | Increase
  | Decrease
deriving DecidableEq, Repr

/-- `PrimaryAccountType` from accounting_tree.rs. -/
structure PrimaryAccountType where
  name : String
  on_debit : ActionType
  on_credit : ActionType
deriving DecidableEq, Repr

/-- Node kinds: `RootNode`, `AccountTagNode`, `AccountNode`. -/
inductive NodeKind where
  | rootK
  | tagK
  | accountK
deriving DecidableEq, Repr

/-- A node of the accounting tree: kind, level, name, cached account type,
stored amount field, children (in insertion order). -/
inductive TreeNode where
  | mk : NodeKind → Nat → String → Option PrimaryAccountType → Rat →
      List TreeNode → TreeNode

namespace TreeNode

def kind : TreeNode → NodeKind
  | .mk k _ _ _ _ _ => k

def level : TreeNode → Nat
  | .mk _ l _ _ _ _ => l

def name : TreeNode → String
  | .mk _ _ n _ _ _ => n

def accountType : TreeNode → Option PrimaryAccountType
  | .mk _ _ _ t _ _ => t

/-- The `amount()` trait method: `RootNode::amount` always returns `0`;
tag and account nodes return the stored field. -/
def amount : TreeNode → Rat
  | .mk .rootK _ _ _ _ _ => 0
  | .mk _ _ _ _ a _ => a

/-- The `set_amount` trait method: a no-op on `RootNode`
(`fn set_amount(&mut self, amount: f64) { _ = amount; }`); tag and account
nodes store the value. -/
def setAmount : TreeNode → Rat → TreeNode
  | .mk .rootK l n t a cs, _ => .mk .rootK l n t a cs
  | .mk k l n t _ cs, v => .mk k l n t v cs

/-- The `add_child` trait method: `RootNode` and `AccountTagNode` push onto
their child vector; `AccountNode::add_child` is a no-op (`_ = child`). -/
def addChild : TreeNode → TreeNode → TreeNode
  | .mk .accountK l n t a cs, _ => .mk .accountK l n t a cs
  | .mk k l n t a cs, c => .mk k l n t a (cs ++ [c])

def children : TreeNode → List TreeNode
  | .mk _ _ _ _ _ cs => cs

end TreeNode

/-- `str::eq_ignore_ascii_case` on a single character. -/
def asciiLower (c : Char) : Char :=
  if 'A' ≤ c ∧ c ≤ 'Z' then Char.ofNat (c.toNat + 32) else c

/-- `str::eq_ignore_ascii_case`: equality after ASCII lowercasing. -/
def eqIgnoreAsciiCase (a b : String) : Bool :=
  a.data.map asciiLower == b.data.map asciiLower

mutual
/-- `DFS::traverse` from accounting_tree.rs: check the current node's name
(case-insensitively), otherwise recurse into the children left to right,
returning the first match. -/
def dfsTraverse : TreeNode → String → Option TreeNode
  | .mk k l n t a cs, q =>
    if eqIgnoreAsciiCase n q then some (.mk k l n t a cs)
    else dfsChildren cs q

/-- The child loop of `DFS::traverse`. -/
def dfsChildren : List TreeNode → String → Option TreeNode
  | [], _ => none
  | c :: cs, q =>
    match dfsTraverse c q with
    | some r => some r
    | none => dfsChildren cs q
end

mutual
/-- Pre-order listing of the nodes of a tree (specification side, used to
state what "first match in pre-order" means). -/
def preorder : TreeNode → List TreeNode
  | .mk k l n t a cs => .mk k l n t a cs :: preorderList cs

def preorderList : List TreeNode → List TreeNode
  | [] => []
  | c :: cs => preorder c ++ preorderList cs
end

/-- Sum of `amount()` over a list of (already aggregated) children, in child
list order, as accumulated by the loop in `aggregate`. -/
def sumAmounts : List TreeNode → Rat
  | [] => 0
  | c :: cs => c.amount + sumAmounts cs

mutual
/-- `AmountAggregator::aggregate` from accounting_tree.rs.  A node without
children is returned unchanged.  Otherwise the accumulator starts at the
node's `amount()` (which is `0` for `RootNode`), each child is aggregated in
order and its `amount()` added, and the total is written back with
`set_amount` (a no-op on `RootNode`). -/
def aggregate : TreeNode → TreeNode
  | .mk k l n t a cs =>
    if cs.isEmpty then .mk k l n t a cs
    else
      (TreeNode.mk k l n t a (aggregateList cs)).setAmount
        ((TreeNode.mk k l n t a cs).amount + sumAmounts (aggregateList cs))

/-- The child loop of `aggregate`: aggregate each child in order. -/
def aggregateList : List TreeNode → List TreeNode
  | [] => []
  | c :: cs => aggregate c :: aggregateList cs
end

mutual
/-- Specification side: the sum of `amount()` over all childless nodes of a
tree ("leaf amounts"). -/
def leafSum : TreeNode → Rat
  | .mk k l n t a cs =>
    if cs.isEmpty then (TreeNode.mk k l n t a cs).amount
    else leafSumList cs

def leafSumList : List TreeNode → Rat
  | [] => 0
  | c :: cs => leafSum c + leafSumList cs
end

/-! ## Node construction (`AccountTagNode::new`, `AccountNode::new`)

The Rust constructors receive the parent as `Option<Rc<RefCell<dyn
ParentNode>>>` and only ever read `level()`, `account_type()` and `parent()`
walking upward.  `AncChain` is that upward view: the data of a node together
with its chain of ancestors. -/

/-- A node's upward ancestor view: its level, its cached account type and
its (optional) parent. -/
inductive AncChain where
  | mk : Nat → Option PrimaryAccountType → Option AncChain → AncChain

namespace AncChain

def level : AncChain → Nat
  | .mk l _ _ => l

def accountType : AncChain → Option PrimaryAccountType
  | .mk _ t _ => t

def parent : AncChain → Option AncChain
  | .mk _ _ p => p

end AncChain

/-- The ancestor walk in `AccountTagNode::new` for `level > 1`: starting at
the parent, follow `parent()` while `level() != 1`; reaching a node with no
parent is a panic (`panic!("")`), modelled as an error. -/
def walkToLevel1 : AncChain → Except String (Option PrimaryAccountType)
  | .mk l t p =>
    if l = 1 then .ok t
    else
      match p with
      | none => .error "panicked while walking ancestors"
      | some pc => walkToLevel1 pc

/-- Specification side: the account type of the first level-1 node met when
walking up from a node (the "nearest level-1 ancestor"), `none` when the
walk runs out of ancestors. -/
def nearestLevel1Type : AncChain → Option (Option PrimaryAccountType)
  | .mk l t p =>
    if l = 1 then some t
    else
      match p with
      | none => none
      | some pc => nearestLevel1Type pc

/-- `AccountTagNode::new` from accounting_tree.rs.  `level < 1` panics;
`level > 1` unwraps the parent (panicking on `None`) and resolves the
account type by the ancestor walk; `level == 1` requires an explicit
account type.  The new node starts with amount `0` and no children. -/
def AccountTagNode.new (level : Nat) (name : String) (parent : Option AncChain)
    (account_type : Option PrimaryAccountType) : Except String TreeNode :=
  if level < 1 then
    .error "Cannot have an AccountTagNode whose level is < 1."
  else if level > 1 then
    match parent with
    | none => .error "called Option::unwrap on a None value"
    | some p => do
      let t ← walkToLevel1 p
      .ok (.mk .tagK level name t 0 [])
  else
    match account_type with
    | none => .error "Level 1 nodes cannot miss an associated account type"
    | some t => .ok (.mk .tagK level name (some t) 0 [])

/-- `AccountNode::new` from accounting_tree.rs: unwraps the parent
(panicking on `None`) and copies the parent's cached `account_type()`
directly.  The new node starts with amount `0` and no children. -/
def AccountNode.new (level : Nat) (name : String) (parent : Option AncChain) :
    Except String TreeNode :=
  match parent with
  | none => .error "called Option::unwrap on a None value"
  | some p => .ok (.mk .accountK level name p.accountType 0 [])

/-! ## Ledger (ledger.rs) -/

/-- `EntryType` from ledger.rs. -/
inductive EntryType where
  | Credit
  | Debit
deriving DecidableEq, Repr

/-- `TransactionEntry` from ledger.rs.  The `account` field is an
`AccountNodeRef`; `build` only reads the referenced node's name and cached
account type, so the entry carries that snapshot (`accountName`,
`accountType`). -/
structure TransactionEntry where
  accountName : String
  accountType : Option PrimaryAccountType
  amount : Rat
  entry_type : EntryType
  date_of_entry : Int
  description : String
deriving DecidableEq, Repr

/-- `JournalEntry` from ledger.rs. -/
structure JournalEntry where
  id : Nat
  transaction_entries : List TransactionEntry
  date_of_entry : Int
  description : String
deriving DecidableEq, Repr

namespace JournalEntry

/-- `JournalEntry::add_transaction_entry`: push one transaction entry. -/
def addTransactionEntry (j : JournalEntry) (e : TransactionEntry) :
    JournalEntry :=
  { j with transaction_entries := j.transaction_entries ++ [e] }

/-- `JournalEntry::total_credit`: filter the credit entries and sum their
amounts. -/
def total_credit (j : JournalEntry) : Rat :=
  ((j.transaction_entries.filter
      (fun e => e.entry_type = EntryType.Credit)).map
      (fun e => e.amount)).sum

/-- `JournalEntry::total_debit`: filter the debit entries and sum their
amounts. -/
def total_debit (j : JournalEntry) : Rat :=
  ((j.transaction_entries.filter
      (fun e => e.entry_type = EntryType.Debit)).map
      (fun e => e.amount)).sum

/-- The accumulation loop of `JournalEntry::validate`: one pass over the
entries, accumulating `(debits, credits)`. -/
def validateLoop : List TransactionEntry → Rat × Rat → Rat × Rat
  | [], acc => acc
  | e :: es, (debits, credits) =>
    match e.entry_type with
    | EntryType.Credit => validateLoop es (debits, credits + e.amount)
    | EntryType.Debit => validateLoop es (debits + e.amount, credits)

/-- `JournalEntry::validate`: sum debits and credits in one pass and
return `debits == credits`. -/
def validate (j : JournalEntry) : Bool :=
  let (debits, credits) := validateLoop j.transaction_entries (0, 0)
  debits == credits

end JournalEntry

/-- `Ledger` from ledger.rs. -/
structure Ledger where
  id : Nat
  from_date : Int
  to_date : Int
  journal_entries : List JournalEntry
deriving DecidableEq, Repr

namespace Ledger

/-- `Ledger::new` from ledger.rs.  The constructor asserts
`from_date.cmp(&to_date) == Ordering::Less.then(Ordering::Equal)`; a failed
assertion panics, modelled as an error. -/
def new (id : Nat) (from_date to_date : Int) : Except String Ledger :=
  if compare from_date to_date = Ordering.lt.then Ordering.eq then
    .ok { id := id, from_date := from_date, to_date := to_date,
          journal_entries := [] }
  else
    .error "assertion failed: from_date.cmp(&to_date) == Less.then(Equal)"

/-- `Ledger::validate_journal_entry_dates`: both asserts hold, i.e. the
entry's date lies in `[from_date, to_date]`. -/
def validJournalEntryDates (l : Ledger) (j : JournalEntry) : Bool :=
  l.from_date ≤ j.date_of_entry && j.date_of_entry ≤ l.to_date

/-- `Ledger::add_journal_entry`: validate the entry's date (panicking if it
is out of the window, before any mutation), then push it. -/
def add_journal_entry (l : Ledger) (j : JournalEntry) : Except String Ledger :=
  if l.validJournalEntryDates j then
    .ok { l with journal_entries := l.journal_entries ++ [j] }
  else
    .error "assertion failed: journal entry date outside ledger window"

/-- `Ledger::add_journal_entries`: validate every entry's date first
(`for_each(validate)`, panicking at the first violation before anything is
appended), then append them all. -/
def add_journal_entries (l : Ledger) (js : List JournalEntry) :
    Except String Ledger :=
  if js.all l.validJournalEntryDates then
    .ok { l with journal_entries := l.journal_entries ++ js }
  else
    .error "assertion failed: journal entry date outside ledger window"

end Ledger

/-! ## Balance sheet reconciliation (balance_sheet.rs)

`BalanceSheet::build` mutates the tree through `Rc` aliases found by a
single reused `DFS` object.  `DFS::traverse` searches from the object's
current `node` (not from `root`) and leaves `node` at the match, so the
lookup for each accumulated account name starts at the node found by the
previous lookup.  The model makes this explicit with a cursor: a path of
child indices into the tree.

balance_sheet.rs calls `TransactionEntry::account_type()`,
`::account_name()` and `::id()`, which ledger.rs does not define.  Modelled
from the spec: "resolve its account's `PrimaryAccountType`" and group "by
account name" — the entry's `accountType`/`accountName` snapshot fields
stand for the referenced account node's cached type and name. -/

mutual
/-- Path (child indices) to the first pre-order case-insensitive name match,
i.e. the position of the node `DFS::traverse` returns. -/
def findPath : TreeNode → String → Option (List Nat)
  | .mk _ _ n _ _ cs, q =>
    if eqIgnoreAsciiCase n q then some []
    else findPathAux cs q 0

def findPathAux : List TreeNode → String → Nat → Option (List Nat)
  | [], _, _ => none
  | c :: cs, q, i =>
    match findPath c q with
    | some p => some (i :: p)
    | none => findPathAux cs q (i + 1)
end

/-- The subtree at a path of child indices. -/
def subtreeAt : TreeNode → List Nat → Option TreeNode
  | t, [] => some t
  | .mk _ _ _ _ _ cs, i :: p =>
    match cs.get? i with
    | none => none
    | some c => subtreeAt c p

/-- `set_amount` applied through an `Rc` alias: update the node at the given
path (the root's `set_amount` is still a no-op there).  A path component
with no matching child leaves the tree unchanged; with the cursor paths
produced by `findPath` this case never arises. -/
def setAmountAt : TreeNode → List Nat → Rat → TreeNode
  | t, [], v => t.setAmount v
  | .mk k l n ty a cs, i :: p, v =>
    match cs.get? i with
    | none => .mk k l n ty a cs
    | some c => .mk k l n ty a (cs.set i (setAmountAt c p v))

/-- The sign selected in `BalanceSheet::build` step 4: `Credit` consults
`on_credit()`, `Debit` consults `on_debit()`; `Increase` gives `+1`,
`Decrease` gives `-1`. -/
def signValue (et : EntryType) (t : PrimaryAccountType) : Rat :=
  match et with
  | .Credit =>
    match t.on_credit with
    | .Decrease => -1
    | .Increase => 1
  | .Debit =>
    match t.on_debit with
    | .Decrease => -1
    | .Increase => 1

/-- The action the sign selection in `BalanceSheet::build` consults: a
Credit entry uses `account_type.on_credit()`, a Debit entry uses
`account_type.on_debit()`. -/
def actionFor (et : EntryType) (t : PrimaryAccountType) : ActionType :=
  match et with
  | .Credit => t.on_credit
  | .Debit => t.on_debit

/-- The per-account running totals (`accounts_aggregate_map`), as an
association list in first-seen key order.  `updateMap m k d` is
"insert `(k, 0)` if the key is absent, then add `d` to the key's value".
The Rust `HashMap` iterates in arbitrary order; the model fixes first-seen
order (the accumulated values are order-independent, and the claims
evaluated through the write-back loop use single-key maps). -/
def updateMap : List (String × Rat) → String → Rat → List (String × Rat)
  | [], k, d => [(k, d)]
  | (k', v) :: rest, k, d =>
    if k' = k then (k', v + d) :: rest else (k', v) :: updateMap rest k d

/-- Value stored for a key in the running-total map (`0` when absent, the
map's initialisation value). -/
def lookupMap (m : List (String × Rat)) (k : String) : Rat :=
  match m.find? (fun e => e.1 = k) with
  | some e => e.2
  | none => 0

/-- One iteration of the aggregation loop in `BalanceSheet::build`: a
missing account type is a panic naming the entry, otherwise the signed
amount is added to the entry's account-name running total. -/
def processEntry (m : List (String × Rat)) (e : TransactionEntry) :
    Except String (List (String × Rat)) :=
  match e.accountType with
  | none =>
    .error ("Transaction with account name " ++ e.accountName ++
      " has account_type of None")
  | some t => .ok (updateMap m e.accountName (e.amount * signValue e.entry_type t))

/-- The whole aggregation loop of `BalanceSheet::build` over the flattened
transaction entries. -/
def buildAggMap (es : List TransactionEntry) :
    Except String (List (String × Rat)) :=
  es.foldlM processEntry []

/-- The write-back loop of `BalanceSheet::build`: for each accumulated
`(account_name, amount)` pair, search from the reused DFS object's current
node (the cursor), panic when the name is not found, otherwise overwrite the
found node's amount and leave the cursor at the found node. -/
def applyAggMap (t : TreeNode) (cursor : List Nat) :
    List (String × Rat) → Except String (TreeNode × List Nat)
  | [] => .ok (t, cursor)
  | (name, amt) :: rest =>
    match subtreeAt t cursor with
    | none => .error "internal: invalid DFS cursor"
    | some sub =>
      match findPath sub name with
      | none => .error ("Account name " ++ name ++
          " has no associated account node.")
      | some rel =>
        applyAggMap (setAmountAt t (cursor ++ rel) amt) (cursor ++ rel) rest

namespace BalanceSheet

/-- `BalanceSheet::build` from balance_sheet.rs: flatten all transaction
entries of the ledger's journal entries, accumulate signed per-account
totals, write each total onto the tree node found by the (stateful,
reused) DFS, then aggregate from the root. -/
def build (tree : TreeNode) (ledger : Ledger) : Except String TreeNode := do
  let entries := (ledger.journal_entries.map
      (fun j => j.transaction_entries)).flatten
  let m ← buildAggMap entries
  let (t, _) ← applyAggMap tree [] m
  .ok (aggregate t)

end BalanceSheet

/-- Amount reported by the first DFS match for a name (used to state the
reconciliation scenarios). -/
def amountOfName (t : TreeNode) (q : String) : Option Rat :=
  (dfsTraverse t q).map TreeNode.amount

mutual
/-- Specification-side well-formedness for the aggregation claim: no
`RootNode` variant anywhere in the tree (every node stores its amount) and
every node with children has amount `0`. -/
def noRootIntZero : TreeNode → Bool
  | .mk k _ _ _ a cs =>
    !(k == NodeKind.rootK) && (cs.isEmpty || a == 0) && noRootIntZeroList cs

def noRootIntZeroList : List TreeNode → Bool
  | [] => true
  | c :: cs => noRootIntZero c && noRootIntZeroList cs
end

/-! ## Concrete instances

Data used by the specification's worked examples: the `Assets` primary
account type (`on_debit = Increase`, `on_credit = Decrease`) and small
trees/ledgers mirroring the scenarios in the spec and the repository's
tests. -/

/-- The `Assets` primary account type. -/
def assetsType : PrimaryAccountType :=
  ⟨"Assets", ActionType.Increase, ActionType.Decrease⟩

/-- An asset leaf account node with prior amount `0`. -/
def cashLeaf : TreeNode := .mk .accountK 2 "Cash" (some assetsType) 0 []

/-- A level-1 `Assets` tag node over `cashLeaf`. -/
def assetsTag : TreeNode := .mk .tagK 1 "Assets" (some assetsType) 0 [cashLeaf]

/-- A root over the single `Assets` branch. -/
def rootTree : TreeNode := .mk .rootK 0 "root" none 0 [assetsTag]

/-- A single Debit transaction entry of 400 against the `Cash` asset leaf. -/
def debit400 : TransactionEntry :=
  ⟨"Cash", some assetsType, 400, .Debit, 1, "debit 400"⟩

/-- A single Credit transaction entry of 400 against the `Cash` asset leaf. -/
def credit400 : TransactionEntry :=
  ⟨"Cash", some assetsType, 400, .Credit, 1, "credit 400"⟩

/-- A ledger whose only journal entry holds the single 400 Debit. -/
def ledgerDebit : Ledger := ⟨1, 0, 10, [⟨1, [debit400], 1, "je"⟩]⟩

/-- A ledger whose only journal entry holds the single 400 Credit. -/
def ledgerCredit : Ledger := ⟨1, 0, 10, [⟨1, [credit400], 1, "je"⟩]⟩

/-- Leaf valued 1200 for the 3-level aggregation example. -/
def leaf1200 : TreeNode := .mk .accountK 2 "Cash" (some assetsType) 1200 []

/-- Leaf valued 800 for the 3-level aggregation example. -/
def leaf800 : TreeNode := .mk .accountK 2 "Inventory" (some assetsType) 800 []

/-- The tag node over the 1200 and 800 leaves. -/
def tagOver2000 : TreeNode :=
  .mk .tagK 1 "Assets" (some assetsType) 0 [leaf1200, leaf800]

/-- The 3-level Root → Tag → Account tree with leaves 1200 and 800. -/
def rootOver2000 : TreeNode := .mk .rootK 0 "root" none 0 [tagOver2000]

/-- A childless tag node carrying amount 5. -/
def tagAmount5 : TreeNode := .mk .tagK 1 "Assets" (some assetsType) 5 []

/-- A root whose single child carries amount 5: aggregation computes the
total 5 but the root's no-op `set_amount` discards it. -/
def rootDiscard : TreeNode := .mk .rootK 0 "root" none 0 [tagAmount5]

/-- The upward view of a root node (level 0, no type, no parent). -/
def chainRoot : AncChain := .mk 0 none none

/-- The upward view of a level-1 `Assets` tag node under the root. -/
def chainL1 : AncChain := .mk 1 (some assetsType) (some chainRoot)

/-- The upward view of a level-2 tag node that cached the `Assets` type. -/
def chainL2 : AncChain := .mk 2 (some assetsType) (some chainL1)

/-- A balanced journal entry: a 400 Credit and a 400 Debit. -/
def balancedJE : JournalEntry := ⟨1, [credit400, debit400], 1, "balanced"⟩

/-- A journal entry dated outside the `[0, 10]` ledger window. -/
def lateJE : JournalEntry := ⟨2, [], 20, "late"⟩

/-- An empty ledger over the window `[0, 10]`. -/
def emptyLedger : Ledger := ⟨1, 0, 10, []⟩

/-- The tree produced by `build()` of the single 400 Debit against
`rootTree`: the `Cash` leaf is overwritten to 400 and the tag aggregates to
400, while the root still reports 0. -/
def builtDebitTree : TreeNode :=
  .mk .rootK 0 "root" none 0
    [.mk .tagK 1 "Assets" (some assetsType) 400
      [.mk .accountK 2 "Cash" (some assetsType) 400 []]]

/-! ## Helper lemmas -/

mutual
/-- `DFS::traverse` returns exactly the first case-insensitive name match in
pre-order. -/
theorem dfsTraverse_eq_find (t : TreeNode) (q : String) :
    dfsTraverse t q =
      (preorder t).find? (fun n => eqIgnoreAsciiCase n.name q) := by
  cases t with
  | mk k l n ty a cs =>
    rw [dfsTraverse, preorder, List.find?]
    by_cases h : eqIgnoreAsciiCase n q
    · simp [TreeNode.name, h]
    · simp [TreeNode.name, h, dfsChildren_eq_find cs q]

/-- The child loop of `DFS::traverse` returns the first match in the
concatenated pre-orders of the children. -/
theorem dfsChildren_eq_find (cs : List TreeNode) (q : String) :
    dfsChildren cs q =
      (preorderList cs).find? (fun n => eqIgnoreAsciiCase n.name q) := by
  cases cs with
  | nil => rw [dfsChildren, preorderList]; rfl
  | cons c rest =>
    rw [dfsChildren, preorderList, List.find?_append,
      dfsTraverse_eq_find c q, dfsChildren_eq_find rest q]
    cases (preorder c).find? (fun n => eqIgnoreAsciiCase n.name q) <;> simp
end

/-! ## Claims -/

/-- C5: for every finite tree and query name, `DFS::traverse` returns `None`
exactly when no node's name case-insensitively equals the query, and
otherwise returns the first node in pre-order (children left to right from
the root) whose name case-insensitively equals the query. -/
theorem claim_C5_dfs_preorder_first_match (t : TreeNode) (q : String) :
    (dfsTraverse t q = none ↔
      ∀ n ∈ preorder t, eqIgnoreAsciiCase n.name q = false)
    ∧ dfsTraverse t q = (preorder t).find? (fun n => eqIgnoreAsciiCase n.name q)
    ∧ ∀ r, dfsTraverse t q = some r → eqIgnoreAsciiCase r.name q = true := by
  refine ⟨?_, dfsTraverse_eq_find t q, ?_⟩
  · rw [dfsTraverse_eq_find t q, List.find?_eq_none]
    simp
  · intro r hr
    rw [dfsTraverse_eq_find t q] at hr
    simpa using List.find?_some hr

/-- Witness for C5 at the concrete asset tree and the query `"CASH"`. -/
theorem claim_C5_witness :
    eqIgnoreAsciiCase cashLeaf.name "CASH" = true :=
  (claim_C5_dfs_preorder_first_match rootTree "CASH").2.2 cashLeaf
    (by simp +decide [dfsTraverse, dfsChildren, rootTree, assetsTag, cashLeaf])

/-- Unfolding step for `lookupMap` on a cons cell. -/
theorem lookupMap_cons (k' : String) (v : Rat) (xs : List (String × Rat))
    (k : String) :
    lookupMap ((k', v) :: xs) k = if k' = k then v else lookupMap xs k := by
  by_cases h : k' = k <;> simp [lookupMap, List.find?, h]

/-- Adding a delta through `updateMap` changes exactly the key's running
total by that delta. -/
theorem lookupMap_updateMap (m : List (String × Rat)) (k : String) (d : Rat) :
    lookupMap (updateMap m k d) k = lookupMap m k + d := by
  induction m with
  | nil => simp [updateMap, lookupMap, List.find?]
  | cons hd tl ih =>
    obtain ⟨k', v⟩ := hd
    by_cases h : k' = k
    · simp [updateMap, h, lookupMap_cons]
    · simp [updateMap, h, lookupMap_cons, ih]

/-- C1: in `BalanceSheet::build`, each processed transaction entry adds to
its account-name running total exactly `amount * sign`, where the sign is
`+1` when the action selected for the entry (`on_credit()` for Credit,
`on_debit()` for Debit) is `Increase` and `-1` when it is `Decrease`; and
for an `Assets` leaf with prior amount 0, `build()` of a single 400 Debit
yields leaf amount `+400`, of a single 400 Credit `-400`. -/
theorem claim_C1_build_sign_rule :
    (∀ (m : List (String × Rat)) (nm : String) (ty : PrimaryAccountType)
        (amt : Rat) (et : EntryType) (d : Int) (ds : String),
      processEntry m ⟨nm, some ty, amt, et, d, ds⟩ =
        .ok (updateMap m nm (amt * signValue et ty))
      ∧ lookupMap (updateMap m nm (amt * signValue et ty)) nm =
          lookupMap m nm + amt * signValue et ty
      ∧ (actionFor et ty = .Increase → signValue et ty = 1)
      ∧ (actionFor et ty = .Decrease → signValue et ty = -1))
    ∧ (BalanceSheet.build rootTree ledgerDebit).toOption.bind
        (fun t => amountOfName t "Cash") = some 400
    ∧ (BalanceSheet.build rootTree ledgerCredit).toOption.bind
        (fun t => amountOfName t "Cash") = some (-400) := by
  refine ⟨?_, ?_, ?_⟩
  · intro m nm ty amt et d ds
    refine ⟨rfl, lookupMap_updateMap m nm (amt * signValue et ty), ?_, ?_⟩
    · intro h
      cases et <;> simp_all [actionFor, signValue]
    · intro h
      cases et <;> simp_all [actionFor, signValue]
  · simp +decide [BalanceSheet.build, rootTree, ledgerDebit, debit400,
      assetsTag, cashLeaf, assetsType, buildAggMap, processEntry, updateMap,
      signValue, applyAggMap, subtreeAt, findPath, findPathAux, setAmountAt,
      aggregate, aggregateList, sumAmounts, amountOfName, dfsTraverse,
      dfsChildren, TreeNode.amount, TreeNode.setAmount, Except.toOption]
  · simp +decide [BalanceSheet.build, rootTree, ledgerCredit, credit400,
      assetsTag, cashLeaf, assetsType, buildAggMap, processEntry, updateMap,
      signValue, applyAggMap, subtreeAt, findPath, findPathAux, setAmountAt,
      aggregate, aggregateList, sumAmounts, amountOfName, dfsTraverse,
      dfsChildren, TreeNode.amount, TreeNode.setAmount, Except.toOption]

/-- Witness for C1's sign implications at the `Assets` type. -/
theorem claim_C1_witness :
    signValue .Debit assetsType = 1 ∧ signValue .Credit assetsType = -1 :=
  ⟨(claim_C1_build_sign_rule.1 [] "Cash" assetsType 400 .Debit 1 "d").2.2.1
      (by decide),
   (claim_C1_build_sign_rule.1 [] "Cash" assetsType 400 .Credit 1 "c").2.2.2
      (by decide)⟩

/-- For non-root nodes `amount()` reads the stored field. -/
theorem amount_mk_ne_root (k : NodeKind) (l : Nat) (n : String)
    (ty : Option PrimaryAccountType) (a : Rat) (cs : List TreeNode)
    (h : k ≠ NodeKind.rootK) :
    (TreeNode.mk k l n ty a cs).amount = a := by
  cases k with
  | rootK => exact absurd rfl h
  | tagK => rfl
  | accountK => rfl

/-- For non-root nodes `set_amount` stores the value. -/
theorem setAmount_mk_ne_root (k : NodeKind) (l : Nat) (n : String)
    (ty : Option PrimaryAccountType) (a v : Rat) (cs : List TreeNode)
    (h : k ≠ NodeKind.rootK) :
    (TreeNode.mk k l n ty a cs).setAmount v = .mk k l n ty v cs := by
  cases k with
  | rootK => exact absurd rfl h
  | tagK => rfl
  | accountK => rfl

/-- `aggregate` leaves a childless node unchanged. -/
theorem aggregate_nil (k : NodeKind) (l : Nat) (n : String)
    (ty : Option PrimaryAccountType) (a : Rat) :
    aggregate (.mk k l n ty a []) = .mk k l n ty a [] := by
  rw [aggregate]
  rfl

/-- `aggregate` on a node with children: aggregate the children, then store
the node's own `amount()` plus the aggregated children's amounts. -/
theorem aggregate_cons (k : NodeKind) (l : Nat) (n : String)
    (ty : Option PrimaryAccountType) (a : Rat) (cs : List TreeNode)
    (h : cs ≠ []) :
    aggregate (.mk k l n ty a cs) =
      (TreeNode.mk k l n ty a (aggregateList cs)).setAmount
        ((TreeNode.mk k l n ty a cs).amount + sumAmounts (aggregateList cs)) := by
  cases cs with
  | nil => exact absurd rfl h
  | cons c rest =>
    rw [aggregate]
    rfl

/-- The child-loop accumulation equals the mapped sum of aggregated child
amounts. -/
theorem sumAmounts_aggregateList (cs : List TreeNode) :
    sumAmounts (aggregateList cs) =
      (cs.map (fun c => (aggregate c).amount)).sum := by
  induction cs with
  | nil => rw [aggregateList, sumAmounts]; simp
  | cons c rest ih => rw [aggregateList, sumAmounts, List.map, List.sum_cons, ih]

mutual
/-- On trees without a `RootNode` variant whose internal nodes all carry
amount 0, aggregation yields the sum of the leaf amounts. -/
theorem aggregate_amount_eq_leafSum (t : TreeNode)
    (h : noRootIntZero t = true) : (aggregate t).amount = leafSum t := by
  cases t with
  | mk k l n ty a cs =>
    rw [noRootIntZero] at h
    simp only [Bool.and_eq_true, Bool.not_eq_true', beq_eq_false_iff_ne,
      ne_eq, Bool.or_eq_true, List.isEmpty_eq_true, beq_iff_eq] at h
    obtain ⟨⟨hk, hz⟩, hcs⟩ := h
    cases cs with
    | nil =>
      rw [aggregate_nil, leafSum]
      rfl
    | cons c rest =>
      rw [aggregate_cons k l n ty a (c :: rest) (by simp),
        setAmount_mk_ne_root k l n ty a _ _ hk,
        amount_mk_ne_root k l n ty _ _ hk,
        amount_mk_ne_root k l n ty a _ hk,
        aggregateList_sum_eq_leafSumList (c :: rest) hcs]
      rcases hz with hz | hz
      · exact absurd hz (by simp)
      · rw [hz, leafSum]
        simp

/-- List version of `aggregate_amount_eq_leafSum` for the child loop. -/
theorem aggregateList_sum_eq_leafSumList (cs : List TreeNode)
    (h : noRootIntZeroList cs = true) :
    sumAmounts (aggregateList cs) = leafSumList cs := by
  cases cs with
  | nil => rw [aggregateList, sumAmounts, leafSumList]
  | cons c rest =>
    rw [noRootIntZeroList, Bool.and_eq_true] at h
    rw [aggregateList, sumAmounts, leafSumList,
      aggregate_amount_eq_leafSum c h.1,
      aggregateList_sum_eq_leafSumList rest h.2]
end

/-- C2 counterexample: in the 3-level Root → Tag → Account tree with leaves
1200 and 800 (internal amounts 0), the root's `amount()` after aggregation
is 0, not the leaf sum 2000 — `RootNode::amount` is identically 0 and its
`set_amount` discards the computed total. -/
theorem claim_C2_counterexample :
    (aggregate rootOver2000).amount = 0
    ∧ leafSum rootOver2000 = 2000
    ∧ (aggregate rootOver2000).amount ≠ leafSum rootOver2000 := by
  refine ⟨?_, ?_, ?_⟩
  · simp only [rootOver2000]
    rw [aggregate_cons _ _ _ _ _ _ (by simp)]
    rfl
  · simp +decide [leafSum, leafSumList, rootOver2000, tagOver2000, leaf1200,
      leaf800, TreeNode.amount]
    norm_num
  · simp only [rootOver2000]
    rw [aggregate_cons _ _ _ _ _ _ (by simp)]
    simp +decide [TreeNode.setAmount, TreeNode.amount, leafSum, leafSumList,
      tagOver2000, leaf1200, leaf800]
    norm_num

/-- C2 amended: for every tree that stores its amounts everywhere (no
`RootNode` variant) with all internal amounts 0, `aggregate(t).amount()`
equals the sum of all leaf amounts; in the concrete 3-level tree the tag
aggregates to 2000, while the `RootNode` on top reports 0. -/
theorem claim_C2_aggregate_leaf_sum :
    (∀ t : TreeNode, noRootIntZero t = true → (aggregate t).amount = leafSum t)
    ∧ amountOfName (aggregate rootOver2000) "Assets" = some 2000
    ∧ (aggregate rootOver2000).amount = 0 := by
  refine ⟨fun t h => aggregate_amount_eq_leafSum t h, ?_, ?_⟩
  · simp +decide [aggregate, aggregateList, sumAmounts, amountOfName,
      dfsTraverse, dfsChildren, rootOver2000, tagOver2000, leaf1200, leaf800,
      TreeNode.amount, TreeNode.setAmount]
    norm_num
  · simp only [rootOver2000]
    rw [aggregate_cons _ _ _ _ _ _ (by simp)]
    rfl

/-- Witness for C2's amended general part at the concrete tag subtree. -/
theorem claim_C2_witness :
    noRootIntZero tagOver2000 = true
    ∧ (aggregate tagOver2000).amount = leafSum tagOver2000 := by
  have hn : noRootIntZero tagOver2000 = true := by
    simp +decide [noRootIntZero, noRootIntZeroList, tagOver2000, leaf1200,
      leaf800]
  exact ⟨hn, claim_C2_aggregate_leaf_sum.1 tagOver2000 hn⟩

/-- C3 counterexample: for a `RootNode` with one child of amount 5, the
aggregator's result reports amount 0, not "own current amount plus the
aggregated children's amounts" (which is 5): the computed total is
discarded by the root's no-op `set_amount`. -/
theorem claim_C3_counterexample :
    (aggregate rootDiscard).amount = 0
    ∧ rootDiscard.amount +
        ((rootDiscard.children.map (fun c => (aggregate c).amount)).sum) = 5
    ∧ (aggregate rootDiscard).amount ≠
        rootDiscard.amount +
          ((rootDiscard.children.map (fun c => (aggregate c).amount)).sum) := by
  refine ⟨?_, ?_, ?_⟩
  · simp only [rootDiscard]
    rw [aggregate_cons _ _ _ _ _ _ (by simp)]
    rfl
  · simp +decide [rootDiscard, tagAmount5, TreeNode.amount, TreeNode.children,
      aggregate_nil]
  · simp only [rootDiscard]
    rw [aggregate_cons _ _ _ _ _ _ (by simp)]
    simp +decide [tagAmount5, TreeNode.amount, TreeNode.children,
      TreeNode.setAmount, aggregate_nil]

/-- C3 amended: for every tag or account node (not the `RootNode`) with at
least one child, aggregation sets the node's amount to its own current
amount plus the aggregated children's amounts in child-list order; a node
with no children is returned unchanged; a `RootNode` with children still
reports amount 0 because its `set_amount` discards the computed total. -/
theorem claim_C3_aggregate_recursion :
    (∀ (k : NodeKind) (l : Nat) (n : String) (ty : Option PrimaryAccountType)
        (a : Rat) (cs : List TreeNode), k ≠ NodeKind.rootK → cs ≠ [] →
      (aggregate (.mk k l n ty a cs)).amount =
        (TreeNode.mk k l n ty a cs).amount +
          (cs.map (fun c => (aggregate c).amount)).sum)
    ∧ (∀ (k : NodeKind) (l : Nat) (n : String)
        (ty : Option PrimaryAccountType) (a : Rat),
      aggregate (.mk k l n ty a []) = .mk k l n ty a [])
    ∧ (∀ (l : Nat) (n : String) (ty : Option PrimaryAccountType) (a : Rat)
        (cs : List TreeNode), cs ≠ [] →
      (aggregate (.mk NodeKind.rootK l n ty a cs)).amount = 0) := by
  refine ⟨?_, fun k l n ty a => aggregate_nil k l n ty a, ?_⟩
  · intro k l n ty a cs hk hcs
    rw [aggregate_cons k l n ty a cs hcs,
      setAmount_mk_ne_root k l n ty a _ _ hk,
      amount_mk_ne_root k l n ty _ _ hk,
      sumAmounts_aggregateList cs]
  · intro l n ty a cs hcs
    rw [aggregate_cons _ l n ty a cs hcs]
    cases cs with
    | nil => exact absurd rfl hcs
    | cons c rest => rfl

/-- Witness for C3 at the concrete tag node over the 1200 and 800 leaves. -/
theorem claim_C3_witness :
    (aggregate (.mk .tagK 1 "Assets" (some assetsType) 0 [leaf1200, leaf800])).amount =
      (TreeNode.mk .tagK 1 "Assets" (some assetsType) 0 [leaf1200, leaf800]).amount +
        ([leaf1200, leaf800].map (fun c => (aggregate c).amount)).sum :=
  claim_C3_aggregate_recursion.1 .tagK 1 "Assets" (some assetsType) 0
    [leaf1200, leaf800] (by decide) (by simp)

/-- The ancestor walk of `AccountTagNode::new` succeeds with the account
type of the nearest level-1 node of the chain, and panics exactly when the
chain has no level-1 node. -/
theorem walkToLevel1_eq_nearest (c : AncChain) :
    walkToLevel1 c =
      (match nearestLevel1Type c with
        | some t => .ok t
        | none => .error "panicked while walking ancestors") := by
  cases c with
  | mk l t p =>
    rw [walkToLevel1.eq_def, nearestLevel1Type.eq_def]
    by_cases hl : l = 1
    · simp [hl]
    · cases p with
      | none => simp [hl]
      | some pc => simp [hl, walkToLevel1_eq_nearest pc]

/-- C4: a level-1 tag node's `account_type()` is the type it was
constructed with; a level>1 tag node's is the nearest level-1 ancestor's
type (resolved by the ancestor walk, at any depth), and the cached value
stays that nearest level-1 type at deeper levels; an account node copies
its parent's cached type; tag construction fails for level < 1, for
level 1 without a type, and when the ancestor walk runs out of parents
before level 1 (including a missing parent). -/
theorem claim_C4_account_type_inheritance :
    (∀ (n : String) (p : Option AncChain) (t : PrimaryAccountType),
      AccountTagNode.new 1 n p (some t) = .ok (.mk .tagK 1 n (some t) 0 []))
    ∧ (∀ (lvl : Nat) (n : String) (c : AncChain)
        (aty t' : Option PrimaryAccountType),
      1 < lvl → nearestLevel1Type c = some t' →
      AccountTagNode.new lvl n (some c) aty = .ok (.mk .tagK lvl n t' 0 []))
    ∧ (∀ (lvl : Nat) (t' : Option PrimaryAccountType) (c : AncChain),
      lvl ≠ 1 → nearestLevel1Type c = some t' →
      nearestLevel1Type (.mk lvl t' (some c)) = some t')
    ∧ (∀ (lvl : Nat) (n : String) (c : AncChain),
      nearestLevel1Type c = some c.accountType →
      AccountNode.new lvl n (some c) =
        .ok (.mk .accountK lvl n c.accountType 0 []))
    ∧ (∀ (lvl : Nat) (n : String) (p : Option AncChain)
        (aty : Option PrimaryAccountType),
      lvl < 1 → (AccountTagNode.new lvl n p aty).isOk = false)
    ∧ (∀ (n : String) (p : Option AncChain),
      (AccountTagNode.new 1 n p none).isOk = false)
    ∧ (∀ (lvl : Nat) (n : String) (c : AncChain)
        (aty : Option PrimaryAccountType),
      1 < lvl → nearestLevel1Type c = none →
      (AccountTagNode.new lvl n (some c) aty).isOk = false)
    ∧ (∀ (lvl : Nat) (n : String) (aty : Option PrimaryAccountType),
      1 < lvl → (AccountTagNode.new lvl n none aty).isOk = false)
    ∧ (∀ (lvl : Nat) (n : String),
      (AccountNode.new lvl n none).isOk = false) := by
  refine ⟨?_, ?_, ?_, ?_, ?_, ?_, ?_, ?_, ?_⟩
  · intro n p t
    rfl
  · intro lvl n c aty t' hlvl hnear
    simp only [AccountTagNode.new.eq_def, if_neg (show ¬lvl < 1 by omega),
      if_pos hlvl, walkToLevel1_eq_nearest, hnear]
    rfl
  · intro lvl t' c hlvl hnear
    rw [nearestLevel1Type]
    simp [hlvl, hnear]
  · intro lvl n c hnear
    rfl
  · intro lvl n p aty hlvl
    rw [AccountTagNode.new.eq_def, if_pos hlvl]
    rfl
  · intro n p
    rfl
  · intro lvl n c aty hlvl hnone
    simp only [AccountTagNode.new.eq_def, if_neg (show ¬lvl < 1 by omega),
      if_pos hlvl, walkToLevel1_eq_nearest, hnone]
    rfl
  · intro lvl n aty hlvl
    rw [AccountTagNode.new.eq_def]
    rw [if_neg (by omega), if_pos hlvl]
    rfl
  · intro lvl n
    rfl

/-- Witness for C4 at the concrete `Assets` chains of depth 3. -/
theorem claim_C4_witness :
    AccountTagNode.new 3 "Current Assets" (some chainL2) none =
      .ok (.mk .tagK 3 "Current Assets" (some assetsType) 0 [])
    ∧ AccountNode.new 3 "Cash" (some chainL2) =
        .ok (.mk .accountK 3 "Cash" (some assetsType) 0 [])
    ∧ nearestLevel1Type (.mk 2 (some assetsType) (some chainL1)) =
        some (some assetsType)
    ∧ (AccountTagNode.new 0 "bad" none none).isOk = false
    ∧ (AccountTagNode.new 2 "bad" (some chainRoot) none).isOk = false
    ∧ (AccountTagNode.new 2 "bad" none none).isOk = false :=
  ⟨claim_C4_account_type_inheritance.2.1 3 "Current Assets" chainL2 none
      (some assetsType) (by omega)
      (by simp [nearestLevel1Type, chainL2, chainL1]),
   claim_C4_account_type_inheritance.2.2.2.1 3 "Cash" chainL2
      (by simp [nearestLevel1Type, chainL2, chainL1, AncChain.accountType]),
   claim_C4_account_type_inheritance.2.2.1 2 (some assetsType) chainL1
      (by omega) (by simp [nearestLevel1Type, chainL1]),
   claim_C4_account_type_inheritance.2.2.2.2.1 0 "bad" none none (by omega),
   claim_C4_account_type_inheritance.2.2.2.2.2.2.1 2 "bad" chainRoot none
      (by omega) (by simp [nearestLevel1Type, chainRoot]),
   claim_C4_account_type_inheritance.2.2.2.2.2.2.2.1 2 "bad" none (by omega)⟩


/-- Reduction of an `Except` bind on a success value. -/
theorem except_ok_bind {a b : Type} (x : a) (f : a → Except String b) :
    (Except.ok x >>= f) = f x := rfl

/-- Reduction of an `Except` bind on an error value. -/
theorem except_error_bind {a b : Type} (e : String)
    (f : a → Except String b) :
    ((Except.error e : Except String a) >>= f) = Except.error e := rfl

/-- The one-pass accumulation of `JournalEntry::validate` computes the same
debit and credit sums as the filter-based `total_debit`/`total_credit`. -/
theorem validateLoop_spec (es : List TransactionEntry) :
    ∀ d c : Rat, JournalEntry.validateLoop es (d, c) =
      (d + ((es.filter (fun e => e.entry_type = EntryType.Debit)).map
          (fun e => e.amount)).sum,
       c + ((es.filter (fun e => e.entry_type = EntryType.Credit)).map
          (fun e => e.amount)).sum) := by
  induction es with
  | nil => intro d c; simp [JournalEntry.validateLoop]
  | cons e rest ih =>
    intro d c
    obtain ⟨nm, aty, amt, et, dt, ds⟩ := e
    cases et with
    | Credit =>
      rw [JournalEntry.validateLoop]
      show JournalEntry.validateLoop rest (d, c + amt) = _
      rw [ih, List.filter_cons, List.filter_cons]
      simp only [TransactionEntry.entry_type]
      norm_num
      ring_nf
      simp [add_comm, add_assoc, add_left_comm]
    | Debit =>
      rw [JournalEntry.validateLoop]
      show JournalEntry.validateLoop rest (d + amt, c) = _
      rw [ih, List.filter_cons, List.filter_cons]
      simp only [TransactionEntry.entry_type]
      norm_num
      ring_nf
      simp [add_comm, add_assoc, add_left_comm]

/-- `JournalEntry::validate` reports exactly "total credit equals total
debit". -/
theorem validate_iff (j : JournalEntry) :
    j.validate = true ↔ j.total_credit = j.total_debit := by
  rw [JournalEntry.validate, validateLoop_spec, JournalEntry.total_credit,
    JournalEntry.total_debit]
  simp only [zero_add, beq_iff_eq]
  exact ⟨fun h => h.symm, fun h => h.symm⟩

/-- C6: `validate()` is true iff the credit total equals the debit total;
appending one unmatched 700 Debit to a balanced journal entry flips
`validate()` to false and makes `total_debit - total_credit` exactly 700. -/
theorem claim_C6_validate_balance :
    (∀ j : JournalEntry, j.validate = true ↔ j.total_credit = j.total_debit)
    ∧ (∀ (j : JournalEntry) (nm : String) (aty : Option PrimaryAccountType)
        (dt : Int) (ds : String), j.validate = true →
      (j.addTransactionEntry ⟨nm, aty, 700, .Debit, dt, ds⟩).validate = false
      ∧ (j.addTransactionEntry ⟨nm, aty, 700, .Debit, dt, ds⟩).total_debit -
          (j.addTransactionEntry ⟨nm, aty, 700, .Debit, dt, ds⟩).total_credit
          = 700) := by
  refine ⟨validate_iff, ?_⟩
  intro j nm aty dt ds h
  have hcd := (validate_iff j).1 h
  have htd : (j.addTransactionEntry ⟨nm, aty, 700, .Debit, dt, ds⟩).total_debit
      = j.total_debit + 700 := by
    simp [JournalEntry.addTransactionEntry, JournalEntry.total_debit]
  have htc :
      (j.addTransactionEntry ⟨nm, aty, 700, .Debit, dt, ds⟩).total_credit
      = j.total_credit := by
    simp [JournalEntry.addTransactionEntry, JournalEntry.total_credit]
  constructor
  · rw [Bool.eq_false_iff]
    intro hv
    have heq := (validate_iff _).1 hv
    rw [htc, htd, hcd] at heq
    linarith
  · rw [htd, htc, hcd]
    ring

/-- Witness for C6 at the balanced 400/400 journal entry. -/
theorem claim_C6_witness :
    balancedJE.validate = true
    ∧ (balancedJE.addTransactionEntry
        ⟨"Cash", some assetsType, 700, .Debit, 1, "x"⟩).validate = false
    ∧ (balancedJE.addTransactionEntry
        ⟨"Cash", some assetsType, 700, .Debit, 1, "x"⟩).total_debit -
      (balancedJE.addTransactionEntry
        ⟨"Cash", some assetsType, 700, .Debit, 1, "x"⟩).total_credit = 700 := by
  have h : balancedJE.validate = true := by
    simp +decide [JournalEntry.validate, JournalEntry.validateLoop, balancedJE,
      credit400, debit400]
  exact ⟨h,
    (claim_C6_validate_balance.2 balancedJE "Cash" (some assetsType) 1 "x" h).1,
    (claim_C6_validate_balance.2 balancedJE "Cash" (some assetsType) 1 "x" h).2⟩

/-- C7: both the bulk and the single add validate every entry's date
against the ledger window before appending anything, so an out-of-range
entry fails the whole operation with the entry list untouched, and an
all-in-range bulk add appends all entries. -/
theorem claim_C7_date_window_all_or_nothing :
    (∀ (l : Ledger) (js : List JournalEntry) (j : JournalEntry), j ∈ js →
      l.validJournalEntryDates j = false →
      (l.add_journal_entries js).isOk = false)
    ∧ (∀ (l : Ledger) (js : List JournalEntry),
      (∀ j ∈ js, l.validJournalEntryDates j = true) →
      l.add_journal_entries js =
        .ok { l with journal_entries := l.journal_entries ++ js })
    ∧ (∀ (l : Ledger) (j : JournalEntry), l.validJournalEntryDates j = false →
      (l.add_journal_entry j).isOk = false)
    ∧ (∀ (l : Ledger) (j : JournalEntry), l.validJournalEntryDates j = true →
      l.add_journal_entry j =
        .ok { l with journal_entries := l.journal_entries ++ [j] })
    ∧ (∀ (l : Ledger) (j : JournalEntry), l.validJournalEntryDates j =
        (decide (l.from_date ≤ j.date_of_entry) &&
          decide (j.date_of_entry ≤ l.to_date))) := by
  refine ⟨?_, ?_, ?_, ?_, ?_⟩
  · intro l js j hmem hbad
    have hall : js.all l.validJournalEntryDates = false := by
      rw [← Bool.not_eq_true, List.all_eq_true]
      push_neg
      exact ⟨j, hmem, by simp [hbad]⟩
    simp [Ledger.add_journal_entries, hall, Except.isOk, Except.toBool]
  · intro l js hall
    rw [Ledger.add_journal_entries, if_pos (List.all_eq_true.2 hall)]
  · intro l j hbad
    simp [Ledger.add_journal_entry, hbad, Except.isOk, Except.toBool]
  · intro l j hgood
    rw [Ledger.add_journal_entry, if_pos hgood]
  · intro l j
    rfl

/-- Witness for C7 at a `[0, 10]` ledger and an entry dated 20. -/
theorem claim_C7_witness :
    (emptyLedger.add_journal_entries [balancedJE, lateJE]).isOk = false
    ∧ emptyLedger.add_journal_entries [balancedJE] =
        .ok { emptyLedger with
          journal_entries := emptyLedger.journal_entries ++ [balancedJE] }
    ∧ (emptyLedger.add_journal_entry lateJE).isOk = false :=
  ⟨claim_C7_date_window_all_or_nothing.1 emptyLedger [balancedJE, lateJE]
      lateJE (by simp) (by decide),
   claim_C7_date_window_all_or_nothing.2.1 emptyLedger [balancedJE]
      (by intro j hj; simp at hj; subst hj; decide),
   claim_C7_date_window_all_or_nothing.2.2.1 emptyLedger lateJE (by decide)⟩

/-- C8 evaluation: `Ledger::new` succeeds exactly when `from_date` is
STRICTLY before `to_date` — the assert compares `from_date.cmp(&to_date)`
against `Ordering::Less.then(Ordering::Equal)`, which is `Less`, so equal
dates panic, contradicting the code's own comment "Assert the from_date <=
to_date" and the claim. -/
theorem claim_C8_ledger_new_strict :
    (∀ (id : Nat) (fd td : Int), (Ledger.new id fd td).isOk = decide (fd < td))
    ∧ (Ledger.new 1 0 0).isOk = false
    ∧ (Ledger.new 1 0 1).isOk = true
    ∧ (Ledger.new 1 1 0).isOk = false := by
  refine ⟨?_, by decide, by decide, by decide⟩
  intro id fd td
  rw [Ledger.new]
  simp only [show Ordering.lt.then Ordering.eq = Ordering.lt from rfl]
  by_cases h : fd < td
  · rw [if_pos (compare_lt_iff_lt.2 h)]
    simp [h, Except.isOk, Except.toBool]
  · rw [if_neg (fun hc => h (compare_lt_iff_lt.1 hc))]
    simp [h, Except.isOk, Except.toBool]

/-- C9: `AccountNode::add_child` is a no-op — the returned node is the very
same node, so its children list (empty from construction) and every other
field are unchanged; `AccountNode::new` always produces an empty child
list. -/
theorem claim_C9_account_add_child_noop :
    (∀ (l : Nat) (n : String) (ty : Option PrimaryAccountType) (a : Rat)
        (cs : List TreeNode) (c : TreeNode),
      (TreeNode.mk .accountK l n ty a cs).addChild c =
        .mk .accountK l n ty a cs)
    ∧ (∀ (l : Nat) (n : String) (c : AncChain),
      AccountNode.new l n (some c) =
        .ok (.mk .accountK l n c.accountType 0 [])) :=
  ⟨fun _ _ _ _ _ _ => rfl, fun _ _ _ => rfl⟩

/-- `set_amount` through the trait object never changes a node's kind. -/
theorem kind_setAmount (t : TreeNode) (v : Rat) :
    (t.setAmount v).kind = t.kind := by
  obtain ⟨k, l, n, ty, a, cs⟩ := t
  cases k <;> rfl

/-- Aggregation never changes a node's kind. -/
theorem kind_aggregate (t : TreeNode) : (aggregate t).kind = t.kind := by
  obtain ⟨k, l, n, ty, a, cs⟩ := t
  rw [aggregate]
  by_cases h : cs.isEmpty
  · rw [if_pos h]
  · rw [if_neg h, kind_setAmount]
    rfl

/-- Writing an amount through a path never changes the top node's kind. -/
theorem kind_setAmountAt (p : List Nat) (t : TreeNode) (v : Rat) :
    (setAmountAt t p v).kind = t.kind := by
  cases p with
  | nil => rw [setAmountAt]; exact kind_setAmount t v
  | cons i rest =>
    obtain ⟨k, l, n, ty, a, cs⟩ := t
    rw [setAmountAt]
    cases cs.get? i <;> rfl

/-- The write-back loop of `build` never changes the top node's kind. -/
theorem applyAggMap_kind (ms : List (String × Rat)) :
    ∀ (t : TreeNode) (cur : List Nat) (res : TreeNode × List Nat),
      applyAggMap t cur ms = .ok res → res.1.kind = t.kind := by
  induction ms with
  | nil =>
    intro t cur res h
    rw [applyAggMap] at h
    cases h
    rfl
  | cons hd rest ih =>
    intro t cur res h
    obtain ⟨nm, amt⟩ := hd
    rw [applyAggMap] at h
    cases hsub : subtreeAt t cur with
    | none =>
      simp only [hsub] at h
      exact Except.noConfusion h
    | some sub =>
      simp only [hsub] at h
      cases hfp : findPath sub nm with
      | none =>
        simp only [hfp] at h
        exact Except.noConfusion h
      | some rel =>
        simp only [hfp] at h
        have := ih (setAmountAt t (cur ++ rel) amt) (cur ++ rel) res h
        rw [this, kind_setAmountAt]

/-- A root-kinded node's `amount()` is 0. -/
theorem amount_of_kind_root (t : TreeNode) (h : t.kind = NodeKind.rootK) :
    t.amount = 0 := by
  obtain ⟨k, l, n, ty, a, cs⟩ := t
  rw [TreeNode.kind] at h
  subst h
  rfl

/-- C10: `RootNode::amount` returns 0 and `RootNode::set_amount` is a no-op
on every root node, so aggregation and a successful `build()` always leave
a root-topped tree reporting amount 0. -/
theorem claim_C10_root_amount_always_zero :
    (∀ (l : Nat) (n : String) (ty : Option PrimaryAccountType) (a : Rat)
        (cs : List TreeNode),
      (TreeNode.mk .rootK l n ty a cs).amount = 0
      ∧ ∀ v, (TreeNode.mk .rootK l n ty a cs).setAmount v =
          .mk .rootK l n ty a cs)
    ∧ (∀ t : TreeNode, t.kind = NodeKind.rootK → (aggregate t).amount = 0)
    ∧ (∀ (t : TreeNode) (led : Ledger) (res : TreeNode),
      t.kind = NodeKind.rootK → BalanceSheet.build t led = .ok res →
      res.amount = 0) := by
  refine ⟨fun l n ty a cs => ⟨rfl, fun v => rfl⟩, ?_, ?_⟩
  · intro t h
    exact amount_of_kind_root _ ((kind_aggregate t).trans h)
  · intro t led res hk hb
    rw [BalanceSheet.build] at hb
    cases hm : buildAggMap ((led.journal_entries.map
        (fun j => j.transaction_entries)).flatten) with
    | error e =>
      simp only [hm, except_error_bind] at hb
      exact Except.noConfusion hb
    | ok m =>
      simp only [hm, except_ok_bind] at hb
      cases hap : applyAggMap t [] m with
      | error e =>
        simp only [hap, except_error_bind] at hb
        exact Except.noConfusion hb
      | ok pr =>
        obtain ⟨t2, cur2⟩ := pr
        simp only [hap, except_ok_bind] at hb
        cases hb
        refine amount_of_kind_root _ ?_
        rw [kind_aggregate]
        exact (applyAggMap_kind m t [] (t2, cur2) hap).trans hk

/-- Witness for C10 at the concrete asset tree and the 400-Debit ledger. -/
theorem claim_C10_witness :
    builtDebitTree.amount = 0 ∧ (aggregate rootTree).amount = 0 :=
  ⟨claim_C10_root_amount_always_zero.2.2 rootTree ledgerDebit builtDebitTree
      rfl
      (by simp +decide [BalanceSheet.build, rootTree, ledgerDebit, debit400,
        assetsTag, cashLeaf, assetsType, buildAggMap, processEntry, updateMap,
        signValue, applyAggMap, subtreeAt, findPath, findPathAux, setAmountAt,
        aggregate, aggregateList, sumAmounts, dfsTraverse, dfsChildren,
        TreeNode.amount, TreeNode.setAmount, builtDebitTree, except_ok_bind,
        except_error_bind]),
   claim_C10_root_amount_always_zero.2.1 rootTree rfl⟩


end Minidger
